import Mathlib

/-!
Verification of the image/pdf batch merger in `src/assets/merge_pdf.py`.

The development shallowly embeds the two functions of the script:

* `convert_image_to_pdf` — arithmetic of the page geometry is carried out over
  exact rationals (`ℚ`); the Python builtin `int()` is the truncation toward
  zero `truncQ`.
* `merge_all_to_pdf` — the directory listing is a list of named entries whose
  actual filesystem content is modelled by `Content`; library calls that touch
  the outside world (appending a temporary pdf, the final write) may fail, and
  their outcome is part of the environment `Env`.
-/

namespace MergePdf

/-- Truncation toward zero, the behaviour of the Python builtin `int()` on a
rational number. -/
def truncQ (q : ℚ) : ℤ := if 0 ≤ q then ⌊q⌋ else ⌈q⌉

/-- Layout options threaded through `convert_image_to_pdf` and
`merge_all_to_pdf`: page size in points, the `fit_to_page` and
`maintain_aspect_ratio` flags, JPEG quality and target dpi.  Page dimensions
are modelled as exact rationals. -/
structure PageLayoutOptions where
  pageWidth : ℚ
  pageHeight : ℚ
  fitToPage : Bool
  maintainAspectRatio : Bool
  quality : ℕ
  dpi : ℕ
  deriving DecidableEq, Repr

/-- Placement computed by `convert_image_to_pdf`: the position of the drawn
image on the page and its target width and height.  The width and height are
integers: in the fit branch they come out of the Python `int()` truncation, and
otherwise they are the native pixel sizes. -/
structure Geometry where
  xPos : ℚ
  yPos : ℚ
  width : ℤ
  height : ℤ
  deriving DecidableEq, Repr

/-- Geometry part of `convert_image_to_pdf` (merge_pdf.py lines 32-62).  With
`fit_to_page` the available area is the page minus a fixed 20 point margin on
each side; with `maintain_aspect_ratio` the minimum of the two axis ratios
scales both dimensions, each truncated by `int()`, otherwise the available area
itself is the target size; the block is centered on the page.  Without
`fit_to_page` the native pixel size is drawn at the origin. -/
def convertGeometry (imgW imgH : ℕ) (opts : PageLayoutOptions) : Geometry :=
  if opts.fitToPage then
    let margin : ℚ := 20
    let availableWidth : ℚ := opts.pageWidth - 2 * margin
    let availableHeight : ℚ := opts.pageHeight - 2 * margin
    let widthRatio : ℚ := availableWidth / (imgW : ℚ)
    let heightRatio : ℚ := availableHeight / (imgH : ℚ)
    let newWidth : ℤ :=
      if opts.maintainAspectRatio then truncQ ((imgW : ℚ) * min widthRatio heightRatio)
      else truncQ availableWidth
    let newHeight : ℤ :=
      if opts.maintainAspectRatio then truncQ ((imgH : ℚ) * min widthRatio heightRatio)
      else truncQ availableHeight
    { xPos := (opts.pageWidth - (newWidth : ℚ)) / 2,
      yPos := (opts.pageHeight - (newHeight : ℚ)) / 2,
      width := newWidth, height := newHeight }
  else
    { xPos := 0, yPos := 0, width := (imgW : ℤ), height := (imgH : ℤ) }

/-- Failure of the conversion pipeline. -/
inductive ConvError where
  | resizeFailed
  deriving DecidableEq, Repr

/-- Outcome of `convert_image_to_pdf` on a decoded image of the given pixel
size.  The `img.resize` call in the `fit_to_page` branch is a PIL library call
that rejects a non-positive target size, so the conversion fails there instead
of producing a page; otherwise the computed geometry is drawn on a fresh page
of size `pageSize` and the pdf is written to the destination. -/
def convertImageToPdf (imgW imgH : ℕ) (opts : PageLayoutOptions) :
    Except ConvError Geometry :=
  let g := convertGeometry imgW imgH opts
  if opts.fitToPage = true ∧ (g.width ≤ 0 ∨ g.height ≤ 0) then
    Except.error ConvError.resizeFailed
  else Except.ok g

/-- Width of the reportlab `letter` page size: 612 points. -/
def letterWidth : ℚ := 612

/-- Height of the reportlab `letter` page size: 792 points. -/
def letterHeight : ℚ := 792

/-- Width of the reportlab `A4` page size, 210mm at 72 points per inch, exact. -/
def a4Width : ℚ := 75600 / 127

/-- Height of the reportlab `A4` page size, 297mm at 72 points per inch, exact. -/
def a4Height : ℚ := 106920 / 127

/-- Default keyword arguments of `convert_image_to_pdf` and
`merge_all_to_pdf`: letter page, fit to page keeping the aspect ratio,
quality 85, dpi 300. -/
def defaultOpts : PageLayoutOptions :=
  { pageWidth := letterWidth, pageHeight := letterHeight, fitToPage := true,
    maintainAspectRatio := true, quality := 85, dpi := 300 }

/-- Settings dictionary of the `__main__` block: A4 page, fit to page keeping
the aspect ratio, quality 90, dpi 300. -/
def settingsOpts : PageLayoutOptions :=
  { pageWidth := a4Width, pageHeight := a4Height, fitToPage := true,
    maintainAspectRatio := true, quality := 90, dpi := 300 }

/-- Actual filesystem content behind a directory entry: a readable pdf document
with its number of pages, a decodable raster image with its pixel dimensions, a
subdirectory, or any other file. -/
inductive Content where
  | document (numPages : ℕ)
  | image (w h : ℕ)
  | directory
  | other
  deriving DecidableEq, Repr

/-- One entry of the input folder listing: its filename and its content. -/
structure Entry where
  name : String
  content : Content
  deriving DecidableEq, Repr

/-- Classification used by the dispatch of `merge_all_to_pdf`: pdf document,
supported image, or neither. -/
inductive Kind where
  | document
  | image
  | ignored
  deriving DecidableEq, Repr

/-- Supported image extensions of `merge_all_to_pdf` (line 94). -/
def imageExtensions : List String := [".jpg", ".jpeg", ".png", ".gif", ".bmp", ".tiff"]

/-- Python `str.lower`: every character mapped to its lowercase form. -/
def pyLower (s : String) : String := ⟨s.data.map Char.toLower⟩

/-- Python `str.endswith`: the second string is a suffix of the first. -/
def pyEndsWith (s t : String) : Bool := decide (t.data <:+ s.data)

/-- Dispatch of `merge_all_to_pdf` (lines 101-104): `filename.lower()` ending
in `.pdf` is appended as a document, a name whose lowercasing ends in one of
the supported image extensions is converted, anything else is skipped. -/
def classify (filename : String) : Kind :=
  if pyEndsWith (pyLower filename) ".pdf" then Kind.document
  else if imageExtensions.any (fun ext => pyEndsWith (pyLower filename) ext) then Kind.image
  else Kind.ignored

/-- One page of the merged output, tagged with its origin: one page of a pdf
document entry (with its index inside that document), or the single converted
page of an image entry. -/
inductive Page where
  | docPage (file : String) (idx : ℕ)
  | imgPage (file : String)
  deriving DecidableEq, Repr

/-- Environment of one run of `merge_all_to_pdf`: the (unsorted) listing of
the input folder, plus the outcome of the external library calls that can
raise for reasons outside the entry contents: `merger.append` on the freshly
written temporary pdf of a given image entry, and the final `merger.write`. -/
structure Env where
  entries : List Entry
  tempAppendOk : String → Bool
  writeOk : Bool

/-- State of the loop of `merge_all_to_pdf`: pages accumulated in the
PdfMerger, the `temp_files` list of recorded temporary paths, and the
temporary files actually created on disk so far. -/
structure MergeState where
  pages : List Page
  tempsRecorded : List String
  filesCreated : List String
  deriving DecidableEq, Repr

/-- State at entry of `merge_all_to_pdf`: empty merger, no temporary files. -/
def initState : MergeState := { pages := [], tempsRecorded := [], filesCreated := [] }

/-- Temporary path for an image entry (line 106): `temp_` followed by the
source filename followed by `.pdf`, in the working directory. -/
def tempName (filename : String) : String := "temp_" ++ filename ++ ".pdf"

/-- Effect of one iteration of the loop of `merge_all_to_pdf` (lines 99-116)
on one entry.  A pdf filename is appended directly, raising when the path is
not a readable pdf document (for example a subdirectory or a corrupt file); an
image filename is converted to a temporary pdf (raising when the path is not a
decodable image or the conversion fails, in which case no file was written),
then the temporary pdf is appended, and only after that append succeeds is the
temporary path recorded in `temp_files`; any other filename is skipped.  An
error value carries the state at the moment the exception is raised. -/
def processEntry (opts : PageLayoutOptions) (env : Env) (st : MergeState)
    (e : Entry) : Except MergeState MergeState :=
  match classify e.name with
  | Kind.document =>
    match e.content with
    | Content.document n =>
      Except.ok { st with pages := st.pages ++ (List.range n).map (Page.docPage e.name) }
    | _ => Except.error st
  | Kind.image =>
    match e.content with
    | Content.image w h =>
      match convertImageToPdf w h opts with
      | Except.error _ => Except.error st
      | Except.ok _ =>
        let t := tempName e.name
        let created := { st with filesCreated := st.filesCreated ++ [t] }
        if env.tempAppendOk e.name then
          Except.ok { created with pages := created.pages ++ [Page.imgPage e.name],
                                   tempsRecorded := created.tempsRecorded ++ [t] }
        else Except.error created
    | _ => Except.error st
  | Kind.ignored => Except.ok st

/-- Loop of `merge_all_to_pdf` over the sorted listing, stopping at the first
exception. -/
def runLoop (opts : PageLayoutOptions) (env : Env) :
    MergeState → List Entry → Except MergeState MergeState
  | st, [] => Except.ok st
  | st, e :: es =>
    match processEntry opts env st e with
    | Except.ok st1 => runLoop opts env st1 es
    | Except.error st1 => Except.error st1

/-- Comparison used to sort the listing: Python compares strings by their
character sequences lexicographically. -/
def nameLe (a b : Entry) : Prop := a.name.data ≤ b.name.data

instance : DecidableRel nameLe := fun a b =>
  inferInstanceAs (Decidable (a.name.data ≤ b.name.data))

instance : IsTotal Entry nameLe := ⟨fun a b => le_total a.name.data b.name.data⟩

instance : IsTrans Entry nameLe := ⟨fun _ _ _ h h' => le_trans h h'⟩

/-- Listing order of `merge_all_to_pdf` (line 99): `sorted(os.listdir(...))`,
the entries in ascending lexicographic filename order. -/
def sortedEntries (env : Env) : List Entry :=
  env.entries.insertionSort nameLe

/-- Cleanup of the `finally` block (lines 127-131): every recorded temporary
path is removed, best effort; the value is the list of created temporary files
still on disk afterwards. -/
def cleanup (st : MergeState) : List String :=
  st.filesCreated.filter (fun f => !(decide (f ∈ st.tempsRecorded)))

/-- Observable outcome of one call of `merge_all_to_pdf`: whether the run
printed success (no exception) or caught one, whether the output pdf was
written, the pages of the merger, the recorded `temp_files` list, the
temporary files created during the run, and those still on disk after the
`finally` block. -/
structure RunResult where
  success : Bool
  outputWritten : Bool
  pages : List Page
  tempsRecorded : List String
  filesCreated : List String
  remainingFiles : List String
  deriving DecidableEq, Repr

/-- Model of `merge_all_to_pdf` (lines 85-131): sort the listing, run the
loop, write the output when no exception was raised, report any caught
exception, and in every case run the `finally` block removing all recorded
temporary files. -/
def mergeAllToPdf (opts : PageLayoutOptions) (env : Env) : RunResult :=
  match runLoop opts env initState (sortedEntries env) with
  | Except.ok st =>
    if env.writeOk then
      { success := true, outputWritten := true, pages := st.pages,
        tempsRecorded := st.tempsRecorded, filesCreated := st.filesCreated,
        remainingFiles := cleanup st }
    else
      { success := false, outputWritten := false, pages := st.pages,
        tempsRecorded := st.tempsRecorded, filesCreated := st.filesCreated,
        remainingFiles := cleanup st }
  | Except.error st =>
      { success := false, outputWritten := false, pages := st.pages,
        tempsRecorded := st.tempsRecorded, filesCreated := st.filesCreated,
        remainingFiles := cleanup st }

/-- Condition for one entry to pass its loop iteration without an exception. -/
def entryOk (opts : PageLayoutOptions) (env : Env) (e : Entry) : Bool :=
  match classify e.name with
  | Kind.document =>
    match e.content with
    | Content.document _ => true
    | _ => false
  | Kind.image =>
    match e.content with
    | Content.image w h => (convertImageToPdf w h opts).isOk && env.tempAppendOk e.name
    | _ => false
  | Kind.ignored => true

/-- Pages contributed by one entry when no exception is raised on it. -/
def entryPages (e : Entry) : List Page :=
  match classify e.name, e.content with
  | Kind.document, Content.document n => (List.range n).map (Page.docPage e.name)
  | Kind.image, Content.image _ _ => [Page.imgPage e.name]
  | _, _ => []

/-- Temporary files created by one entry when no exception is raised on it. -/
def entryTemps (e : Entry) : List String :=
  match classify e.name, e.content with
  | Kind.image, Content.image _ _ => [tempName e.name]
  | _, _ => []

/-- Number of pages contributed by one entry: the page count of a pdf
document, one for a supported image, zero otherwise. -/
def entryPageCount (e : Entry) : ℕ :=
  match classify e.name, e.content with
  | Kind.document, Content.document n => n
  | Kind.image, Content.image _ _ => 1
  | _, _ => 0

/-- Observable behaviour of the `__main__` block. -/
structure MainResult where
  createdInputDir : Bool
  instructedUser : Bool
  ranMerge : Bool
  mergeOutcome : Option RunResult

/-- Model of the `__main__` block (lines 133-153): with the settings
dictionary, when the configured input directory does not exist it is created
and the user is instructed to populate it and run the script again, and no
merge is performed; otherwise one merge run is performed on it. -/
def scriptMain (inputDirExists : Bool) (env : Env) : MainResult :=
  if inputDirExists then
    { createdInputDir := false, instructedUser := false, ranMerge := true,
      mergeOutcome := some (mergeAllToPdf settingsOpts env) }
  else
    { createdInputDir := true, instructedUser := true, ranMerge := false,
      mergeOutcome := none }

/-- Scale ratio of the maintain branch: the minimum of the two ratios of the
available area (the page minus a 20 point margin per side) to the image size. -/
def fitRatio (imgW imgH : ℕ) (opts : PageLayoutOptions) : ℚ :=
  min ((opts.pageWidth - 40) / (imgW : ℚ)) ((opts.pageHeight - 40) / (imgH : ℚ))

theorem truncQ_nonpos {q : ℚ} (h : q ≤ 0) : truncQ q ≤ 0 := by
  unfold truncQ
  split
  · exact Int.floor_nonpos h
  · exact Int.ceil_le.mpr (by exact_mod_cast h)

theorem truncQ_le {q : ℚ} (h : 0 ≤ q) : (truncQ q : ℚ) ≤ q := by
  unfold truncQ
  rw [if_pos h]
  exact Int.floor_le q

theorem sub_one_lt_truncQ {q : ℚ} (h : 0 ≤ q) : q - 1 < (truncQ q : ℚ) := by
  unfold truncQ
  rw [if_pos h]
  exact Int.sub_one_lt_floor q

theorem pos_of_truncQ_pos {q : ℚ} (h : 0 < truncQ q) : 0 < q := by
  by_contra hq
  exact absurd (truncQ_nonpos (le_of_not_lt hq)) (by omega)

theorem convertGeometry_fit_maintain (imgW imgH : ℕ) (opts : PageLayoutOptions)
    (hfit : opts.fitToPage = true) (hmar : opts.maintainAspectRatio = true) :
    convertGeometry imgW imgH opts =
      { xPos := (opts.pageWidth - ((truncQ ((imgW : ℚ) * fitRatio imgW imgH opts)) : ℚ)) / 2,
        yPos := (opts.pageHeight - ((truncQ ((imgH : ℚ) * fitRatio imgW imgH opts)) : ℚ)) / 2,
        width := truncQ ((imgW : ℚ) * fitRatio imgW imgH opts),
        height := truncQ ((imgH : ℚ) * fitRatio imgW imgH opts) } := by
  simp only [convertGeometry, fitRatio, hfit, hmar, if_true, if_pos]
  norm_num

theorem convertGeometry_fit_stretch (imgW imgH : ℕ) (opts : PageLayoutOptions)
    (hfit : opts.fitToPage = true) (hmar : opts.maintainAspectRatio = false) :
    convertGeometry imgW imgH opts =
      { xPos := (opts.pageWidth - ((truncQ (opts.pageWidth - 40)) : ℚ)) / 2,
        yPos := (opts.pageHeight - ((truncQ (opts.pageHeight - 40)) : ℚ)) / 2,
        width := truncQ (opts.pageWidth - 40),
        height := truncQ (opts.pageHeight - 40) } := by
  simp only [convertGeometry, hfit, hmar, if_true, Bool.false_eq_true, if_false]
  norm_num

theorem convertImageToPdf_ok_iff (imgW imgH : ℕ) (opts : PageLayoutOptions) (g : Geometry) :
    convertImageToPdf imgW imgH opts = Except.ok g ↔
      g = convertGeometry imgW imgH opts ∧
      ¬(opts.fitToPage = true ∧
        ((convertGeometry imgW imgH opts).width ≤ 0 ∨
         (convertGeometry imgW imgH opts).height ≤ 0)) := by
  unfold convertImageToPdf
  by_cases hc : opts.fitToPage = true ∧
      ((convertGeometry imgW imgH opts).width ≤ 0 ∨
       (convertGeometry imgW imgH opts).height ≤ 0)
  · simp [hc]
  · simp [hc]
    exact eq_comm

theorem fitRatio_width_bound (imgW imgH : ℕ) (opts : PageLayoutOptions)
    (himgW : 0 < imgW) :
    (imgW : ℚ) * fitRatio imgW imgH opts ≤ opts.pageWidth - 40 := by
  have h0 : (0 : ℚ) < (imgW : ℚ) := by exact_mod_cast himgW
  have hmin : fitRatio imgW imgH opts ≤ (opts.pageWidth - 40) / (imgW : ℚ) :=
    min_le_left _ _
  calc (imgW : ℚ) * fitRatio imgW imgH opts
      ≤ (imgW : ℚ) * ((opts.pageWidth - 40) / (imgW : ℚ)) := by
        exact mul_le_mul_of_nonneg_left hmin (le_of_lt h0)
    _ = opts.pageWidth - 40 := by field_simp

theorem fitRatio_height_bound (imgW imgH : ℕ) (opts : PageLayoutOptions)
    (himgH : 0 < imgH) :
    (imgH : ℚ) * fitRatio imgW imgH opts ≤ opts.pageHeight - 40 := by
  have h0 : (0 : ℚ) < (imgH : ℚ) := by exact_mod_cast himgH
  have hmin : fitRatio imgW imgH opts ≤ (opts.pageHeight - 40) / (imgH : ℚ) :=
    min_le_right _ _
  calc (imgH : ℚ) * fitRatio imgW imgH opts
      ≤ (imgH : ℚ) * ((opts.pageHeight - 40) / (imgH : ℚ)) := by
        exact mul_le_mul_of_nonneg_left hmin (le_of_lt h0)
    _ = opts.pageHeight - 40 := by field_simp

/-- C3: with `fitToPage` and `maintainAspectRatio` set, a successful
conversion of a (positive-size) image yields a content block of positive size
that keeps at least the 20 point margin on every side of the page, and the
block is centered: its position is half of the page dimension minus the block
dimension on each axis. -/
theorem convert_fit_centered_within_margins
    (imgW imgH : ℕ) (opts : PageLayoutOptions) (g : Geometry)
    (himgW : 0 < imgW) (himgH : 0 < imgH)
    (hfit : opts.fitToPage = true) (hmar : opts.maintainAspectRatio = true)
    (hok : convertImageToPdf imgW imgH opts = Except.ok g) :
    0 < g.width ∧ 0 < g.height ∧
    g.xPos = (opts.pageWidth - (g.width : ℚ)) / 2 ∧
    g.yPos = (opts.pageHeight - (g.height : ℚ)) / 2 ∧
    20 ≤ g.xPos ∧ g.xPos + (g.width : ℚ) ≤ opts.pageWidth - 20 ∧
    20 ≤ g.yPos ∧ g.yPos + (g.height : ℚ) ≤ opts.pageHeight - 20 := by
  obtain ⟨hg, hcond⟩ := (convertImageToPdf_ok_iff imgW imgH opts g).mp hok
  rw [convertGeometry_fit_maintain imgW imgH opts hfit hmar] at hg hcond
  subst hg
  simp only [hfit, true_and, not_or, not_le] at hcond
  obtain ⟨hW, hH⟩ := hcond
  have hWq : ((truncQ ((imgW : ℚ) * fitRatio imgW imgH opts)) : ℚ) ≤
      (imgW : ℚ) * fitRatio imgW imgH opts :=
    truncQ_le (le_of_lt (pos_of_truncQ_pos hW))
  have hHq : ((truncQ ((imgH : ℚ) * fitRatio imgW imgH opts)) : ℚ) ≤
      (imgH : ℚ) * fitRatio imgW imgH opts :=
    truncQ_le (le_of_lt (pos_of_truncQ_pos hH))
  have hWb := fitRatio_width_bound imgW imgH opts himgW
  have hHb := fitRatio_height_bound imgW imgH opts himgH
  refine ⟨hW, hH, rfl, rfl, ?_, ?_, ?_, ?_⟩ <;> simp only [] <;> linarith

/-- C5: with `fitToPage` and `maintainAspectRatio` set, a successful
conversion scales both pixel dimensions by the one factor
`min(availableWidth/imageWidth, availableHeight/imageHeight)`, truncating each
product to an integer, so each target dimension is within one unit below the
exact uniformly scaled value. -/
theorem convert_fit_uniform_scaling
    (imgW imgH : ℕ) (opts : PageLayoutOptions) (g : Geometry)
    (hfit : opts.fitToPage = true) (hmar : opts.maintainAspectRatio = true)
    (hok : convertImageToPdf imgW imgH opts = Except.ok g) :
    g.width = truncQ ((imgW : ℚ) * fitRatio imgW imgH opts) ∧
    g.height = truncQ ((imgH : ℚ) * fitRatio imgW imgH opts) ∧
    (imgW : ℚ) * fitRatio imgW imgH opts - 1 < (g.width : ℚ) ∧
    (g.width : ℚ) ≤ (imgW : ℚ) * fitRatio imgW imgH opts ∧
    (imgH : ℚ) * fitRatio imgW imgH opts - 1 < (g.height : ℚ) ∧
    (g.height : ℚ) ≤ (imgH : ℚ) * fitRatio imgW imgH opts := by
  obtain ⟨hg, hcond⟩ := (convertImageToPdf_ok_iff imgW imgH opts g).mp hok
  rw [convertGeometry_fit_maintain imgW imgH opts hfit hmar] at hg hcond
  subst hg
  simp only [hfit, true_and, not_or, not_le] at hcond
  obtain ⟨hW, hH⟩ := hcond
  have hWpos := le_of_lt (pos_of_truncQ_pos hW)
  have hHpos := le_of_lt (pos_of_truncQ_pos hH)
  exact ⟨rfl, rfl, sub_one_lt_truncQ hWpos, truncQ_le hWpos,
         sub_one_lt_truncQ hHpos, truncQ_le hHpos⟩

/-- C8: without `fitToPage`, conversion always succeeds and places the image
at the page origin with its native pixel dimensions, whatever the page size,
the aspect flag, the quality or the dpi: no scaling of any kind happens. -/
theorem convert_no_fit_passthrough (imgW imgH : ℕ) (opts : PageLayoutOptions)
    (hfit : opts.fitToPage = false) :
    convertImageToPdf imgW imgH opts = Except.ok ⟨0, 0, (imgW : ℤ), (imgH : ℤ)⟩ := by
  simp [convertImageToPdf, convertGeometry, hfit]

/-- C10: with `fitToPage`, a page whose width or height is at most 40 points
(twice the fixed 20 point margin) leaves no positive available area: at least
one truncated target dimension is not positive and the conversion fails at the
resize step instead of producing a page, for any image and both values of
`maintainAspectRatio`. -/
theorem convert_fit_fails_on_small_page
    (imgW imgH : ℕ) (opts : PageLayoutOptions)
    (himgW : 0 < imgW) (himgH : 0 < imgH)
    (hfit : opts.fitToPage = true)
    (hsmall : opts.pageWidth ≤ 40 ∨ opts.pageHeight ≤ 40) :
    ((convertGeometry imgW imgH opts).width ≤ 0 ∨
     (convertGeometry imgW imgH opts).height ≤ 0) ∧
    convertImageToPdf imgW imgH opts = Except.error ConvError.resizeFailed := by
  have h0W : (0 : ℚ) ≤ (imgW : ℚ) := by positivity
  have h0H : (0 : ℚ) ≤ (imgH : ℚ) := by positivity
  have hdim : (convertGeometry imgW imgH opts).width ≤ 0 ∨
      (convertGeometry imgW imgH opts).height ≤ 0 := by
    cases hmar : opts.maintainAspectRatio with
    | true =>
      rw [convertGeometry_fit_maintain imgW imgH opts hfit hmar]
      have hrle : fitRatio imgW imgH opts ≤ 0 := by
        rcases hsmall with hs | hs
        · exact le_trans (min_le_left _ _)
            (div_nonpos_of_nonpos_of_nonneg (by linarith) h0W)
        · exact le_trans (min_le_right _ _)
            (div_nonpos_of_nonpos_of_nonneg (by linarith) h0H)
      exact Or.inl (truncQ_nonpos (mul_nonpos_of_nonneg_of_nonpos h0W hrle))
    | false =>
      rw [convertGeometry_fit_stretch imgW imgH opts hfit hmar]
      rcases hsmall with hs | hs
      · exact Or.inl (truncQ_nonpos (by linarith))
      · exact Or.inr (truncQ_nonpos (by linarith))
  refine ⟨hdim, ?_⟩
  unfold convertImageToPdf
  rw [if_pos ⟨hfit, hdim⟩]

/-- State carried by either outcome of a loop step or of the whole loop. -/
def stateOf : Except MergeState MergeState → MergeState
  | Except.ok st => st
  | Except.error st => st

theorem processEntry_of_entryOk (opts : PageLayoutOptions) (env : Env)
    (st : MergeState) (e : Entry) (h : entryOk opts env e = true) :
    processEntry opts env st e =
      Except.ok { pages := st.pages ++ entryPages e,
                  tempsRecorded := st.tempsRecorded ++ entryTemps e,
                  filesCreated := st.filesCreated ++ entryTemps e } := by
  unfold entryOk at h
  unfold processEntry entryPages entryTemps
  cases hcl : classify e.name with
  | document =>
    rw [hcl] at h
    cases hct : e.content with
    | document n => simp [hcl, hct]
    | image w hh => rw [hct] at h; simp at h
    | directory => rw [hct] at h; simp at h
    | other => rw [hct] at h; simp at h
  | image =>
    rw [hcl] at h
    cases hct : e.content with
    | image w hh =>
      rw [hct] at h
      rw [Bool.and_eq_true] at h
      obtain ⟨hok, happ⟩ := h
      cases hconv : convertImageToPdf w hh opts with
      | error err => rw [hconv] at hok; simp [Except.isOk, Except.toBool] at hok
      | ok g => simp [hcl, hct, hconv, happ]
    | document n => rw [hct] at h; simp at h
    | directory => rw [hct] at h; simp at h
    | other => rw [hct] at h; simp at h
  | ignored =>
    cases hct : e.content <;> simp [hcl, hct]

theorem processEntry_error_of_not_entryOk (opts : PageLayoutOptions) (env : Env)
    (st : MergeState) (e : Entry) (h : entryOk opts env e = false) :
    ∃ st1, processEntry opts env st e = Except.error st1 := by
  unfold entryOk at h
  unfold processEntry
  cases hcl : classify e.name with
  | document =>
    rw [hcl] at h
    cases hct : e.content with
    | document n => rw [hct] at h; simp at h
    | image w hh => simp [hcl, hct]
    | directory => simp [hcl, hct]
    | other => simp [hcl, hct]
  | image =>
    rw [hcl] at h
    cases hct : e.content with
    | image w hh =>
      rw [hct] at h
      cases hconv : convertImageToPdf w hh opts with
      | error err => simp [hcl, hct, hconv]
      | ok g =>
        by_cases happ : env.tempAppendOk e.name = true
        · simp [hconv, Except.isOk, Except.toBool, happ] at h
        · simp [hcl, hct, hconv, happ]
    | document n => simp [hcl, hct]
    | directory => simp [hcl, hct]
    | other => simp [hcl, hct]
  | ignored => rw [hcl] at h; simp at h

theorem runLoop_of_all_ok (opts : PageLayoutOptions) (env : Env)
    (es : List Entry) (st : MergeState)
    (h : ∀ e ∈ es, entryOk opts env e = true) :
    runLoop opts env st es =
      Except.ok { pages := st.pages ++ es.flatMap entryPages,
                  tempsRecorded := st.tempsRecorded ++ es.flatMap entryTemps,
                  filesCreated := st.filesCreated ++ es.flatMap entryTemps } := by
  induction es generalizing st with
  | nil => simp [runLoop]
  | cons e es ih =>
    have hpe := processEntry_of_entryOk opts env st e (h e (List.mem_cons_self _ _))
    have hrest := ih { pages := st.pages ++ entryPages e,
                       tempsRecorded := st.tempsRecorded ++ entryTemps e,
                       filesCreated := st.filesCreated ++ entryTemps e }
      (fun x hx => h x (List.mem_cons_of_mem _ hx))
    simp only [runLoop, hpe, hrest]
    simp [List.append_assoc]

theorem all_ok_of_runLoop_ok (opts : PageLayoutOptions) (env : Env)
    (es : List Entry) (st st₂ : MergeState)
    (h : runLoop opts env st es = Except.ok st₂) :
    ∀ e ∈ es, entryOk opts env e = true := by
  induction es generalizing st with
  | nil => simp
  | cons e es ih =>
    cases hres : processEntry opts env st e with
    | error st1 =>
      rw [runLoop] at h
      rw [hres] at h
      simp at h
    | ok st1 =>
      have he : entryOk opts env e = true := by
        by_contra hne
        obtain ⟨st2, herr⟩ :=
          processEntry_error_of_not_entryOk opts env st e (Bool.eq_false_iff.mpr hne)
        rw [hres] at herr
        simp at herr
      rw [runLoop] at h
      rw [hres] at h
      intro x hx
      rcases List.mem_cons.mp hx with rfl | hx2
      · exact he
      · exact ih _ h _ hx2

theorem processEntry_preserves_inv (opts : PageLayoutOptions) (env : Env)
    (st : MergeState) (e : Entry)
    (happ : env.tempAppendOk e.name = true)
    (hst : ∀ f ∈ st.filesCreated, f ∈ st.tempsRecorded) :
    ∀ f ∈ (stateOf (processEntry opts env st e)).filesCreated,
      f ∈ (stateOf (processEntry opts env st e)).tempsRecorded := by
  unfold processEntry
  cases hcl : classify e.name with
  | document =>
    cases hct : e.content <;> simpa [hcl, hct, stateOf] using hst
  | image =>
    cases hct : e.content with
    | image w hh =>
      cases hconv : convertImageToPdf w hh opts with
      | error err => simpa [hcl, hct, hconv, stateOf] using hst
      | ok g =>
        simp only [hcl, hct, hconv, happ, if_pos, stateOf]
        intro f hf
        rcases List.mem_append.mp hf with hf2 | hf2
        · exact List.mem_append.mpr (Or.inl (hst f hf2))
        · exact List.mem_append.mpr (Or.inr hf2)
    | document n => simpa [hcl, hct, stateOf] using hst
    | directory => simpa [hcl, hct, stateOf] using hst
    | other => simpa [hcl, hct, stateOf] using hst
  | ignored =>
    cases hct : e.content <;> simpa [hcl, hct, stateOf] using hst

theorem runLoop_created_sub_recorded (opts : PageLayoutOptions) (env : Env)
    (es : List Entry) (st : MergeState)
    (happ : ∀ e ∈ es, env.tempAppendOk e.name = true)
    (hst : ∀ f ∈ st.filesCreated, f ∈ st.tempsRecorded) :
    ∀ f ∈ (stateOf (runLoop opts env st es)).filesCreated,
      f ∈ (stateOf (runLoop opts env st es)).tempsRecorded := by
  induction es generalizing st with
  | nil => simpa [runLoop, stateOf] using hst
  | cons e es ih =>
    rw [runLoop]
    have hpe := processEntry_preserves_inv opts env st e
      (happ e (List.mem_cons_self _ _)) hst
    cases hres : processEntry opts env st e with
    | ok st1 =>
      rw [hres] at hpe
      exact ih _ (fun x hx => happ x (List.mem_cons_of_mem _ hx)) hpe
    | error st1 =>
      rw [hres] at hpe
      simpa [stateOf] using hpe

theorem mergeAllToPdf_remainingFiles (opts : PageLayoutOptions) (env : Env) :
    (mergeAllToPdf opts env).remainingFiles =
      cleanup (stateOf (runLoop opts env initState (sortedEntries env))) := by
  unfold mergeAllToPdf
  cases h : runLoop opts env initState (sortedEntries env) with
  | ok st => cases henv : env.writeOk <;> simp [stateOf, henv]
  | error st => simp [stateOf]

theorem mergeAllToPdf_tempsRecorded (opts : PageLayoutOptions) (env : Env) :
    (mergeAllToPdf opts env).tempsRecorded =
      (stateOf (runLoop opts env initState (sortedEntries env))).tempsRecorded := by
  unfold mergeAllToPdf
  cases h : runLoop opts env initState (sortedEntries env) with
  | ok st => cases henv : env.writeOk <;> simp [stateOf, henv]
  | error st => simp [stateOf]

theorem mergeAllToPdf_pages (opts : PageLayoutOptions) (env : Env) :
    (mergeAllToPdf opts env).pages =
      (stateOf (runLoop opts env initState (sortedEntries env))).pages := by
  unfold mergeAllToPdf
  cases h : runLoop opts env initState (sortedEntries env) with
  | ok st => cases henv : env.writeOk <;> simp [stateOf, henv]
  | error st => simp [stateOf]

theorem mergeAllToPdf_success_iff (opts : PageLayoutOptions) (env : Env) :
    (mergeAllToPdf opts env).success = true ↔
      (∀ e ∈ env.entries, entryOk opts env e = true) ∧ env.writeOk = true := by
  constructor
  · intro hsucc
    unfold mergeAllToPdf at hsucc
    cases h : runLoop opts env initState (sortedEntries env) with
    | ok st =>
      rw [h] at hsucc
      cases henv : env.writeOk with
      | false => rw [henv] at hsucc; simp at hsucc
      | true =>
        refine ⟨fun e he => ?_, rfl⟩
        exact all_ok_of_runLoop_ok opts env (sortedEntries env) initState st h e
          ((List.mem_insertionSort nameLe).mpr he)
    | error st => rw [h] at hsucc; simp at hsucc
  · rintro ⟨hall, hw⟩
    have hall2 : ∀ e ∈ sortedEntries env, entryOk opts env e = true := fun e he =>
      hall e ((List.mem_insertionSort nameLe).mp he)
    unfold mergeAllToPdf
    rw [runLoop_of_all_ok opts env (sortedEntries env) initState hall2]
    simp [hw]

theorem entryPages_length (e : Entry) : (entryPages e).length = entryPageCount e := by
  unfold entryPages entryPageCount
  cases classify e.name <;> cases e.content <;> simp

/-- C1: a successful run of `merge_all_to_pdf` produces exactly the
concatenation, over the listing sorted in ascending lexicographic filename
order, of the page sequence contributed by each entry — every document entry
contributes its pages in their internal order, every image entry contributes
its single converted page — so the output page count is the sum over the
folder of the document page counts plus the number of image entries. -/
theorem mergeFolder_concat_in_sorted_order (opts : PageLayoutOptions) (env : Env)
    (hsucc : (mergeAllToPdf opts env).success = true) :
    (mergeAllToPdf opts env).pages = (sortedEntries env).flatMap entryPages ∧
    List.Perm (sortedEntries env) env.entries ∧
    (sortedEntries env).Pairwise (fun a b => a.name ≤ b.name) ∧
    (mergeAllToPdf opts env).pages.length = (env.entries.map entryPageCount).sum := by
  obtain ⟨hall, hw⟩ := (mergeAllToPdf_success_iff opts env).mp hsucc
  have hall2 : ∀ e ∈ sortedEntries env, entryOk opts env e = true := fun e he =>
    hall e ((List.mem_insertionSort nameLe).mp he)
  have hrun := runLoop_of_all_ok opts env (sortedEntries env) initState hall2
  have hpages : (mergeAllToPdf opts env).pages = (sortedEntries env).flatMap entryPages := by
    rw [mergeAllToPdf_pages, hrun]
    simp [stateOf, initState]
  have hperm : List.Perm (sortedEntries env) env.entries :=
    List.perm_insertionSort nameLe env.entries
  refine ⟨hpages, hperm, ?_, ?_⟩
  · exact (List.sorted_insertionSort nameLe env.entries).imp
      (fun hle => String.le_iff_toList_le.mpr hle)
  · rw [hpages, List.length_flatMap]
    have hmap : List.map (List.length ∘ entryPages) (sortedEntries env) =
        List.map entryPageCount (sortedEntries env) := by
      apply List.map_congr_left
      intro e _
      exact entryPages_length e
    rw [hmap]
    exact (hperm.map entryPageCount).sum_eq

/-- C2 amended: whenever every append of a freshly converted temporary pdf
succeeds — in particular on every successful run, and on runs that fail while
listing, on a document append, inside a conversion, or at the final write — the
cleanup removes every temporary file created during the run, and none remains.
The amendment excludes runs in which `merger.append` raises on a temporary pdf
that was just written: that file is created before the failure but never
recorded in `temp_files`, so the cleanup does not remove it. -/
theorem mergeFolder_no_temp_left_when_appends_succeed (opts : PageLayoutOptions)
    (env : Env) (happ : ∀ e ∈ env.entries, env.tempAppendOk e.name = true) :
    (mergeAllToPdf opts env).remainingFiles = [] := by
  rw [mergeAllToPdf_remainingFiles]
  have happ2 : ∀ e ∈ sortedEntries env, env.tempAppendOk e.name = true := fun e he =>
    happ e ((List.mem_insertionSort nameLe).mp he)
  have hinv := runLoop_created_sub_recorded opts env (sortedEntries env) initState happ2
    (by simp [initState])
  unfold cleanup
  rw [List.filter_eq_nil_iff]
  intro f hf
  simp [hinv f hf]

/-- Environment of the C2 counterexample: a folder with the single image
a.png, where the `merger.append` call on the freshly written temporary pdf
raises (the final write would succeed). -/
def leakEnv : Env :=
  { entries := [{ name := "a.png", content := Content.image 100 100 }],
    tempAppendOk := fun _ => false, writeOk := true }

/-- C2 counterexample: on `leakEnv` the conversion succeeds and writes
temp_a.png.pdf, the append of that temporary pdf fails, the run reports the
error — and the temporary file created during the run is still on disk after
the run returns, because it was never recorded in `temp_files`. -/
theorem mergeFolder_temp_leak_on_append_failure :
    (mergeAllToPdf defaultOpts leakEnv).success = false ∧
    (mergeAllToPdf defaultOpts leakEnv).filesCreated = ["temp_a.png.pdf"] ∧
    (mergeAllToPdf defaultOpts leakEnv).remainingFiles = ["temp_a.png.pdf"] := by
  have hconv : convertImageToPdf 100 100 defaultOpts = Except.ok ⟨20, 110, 572, 572⟩ := by
    norm_num [convertImageToPdf, convertGeometry, defaultOpts, truncQ,
      letterWidth, letterHeight]
  have hsort : sortedEntries leakEnv =
      [{ name := "a.png", content := Content.image 100 100 }] := by decide
  have hcl : classify "a.png" = Kind.image := by decide
  refine ⟨?_, ?_, ?_⟩ <;>
    simp [mergeAllToPdf, hsort, runLoop, processEntry, hcl, hconv, leakEnv,
      initState, cleanup, tempName]

/-- C4: every failure inside a run of `merge_all_to_pdf` — an entry whose
processing raises or a failing final write — is caught at the boundary and
reported (the run returns normally with the error reported instead of the
success message), and the cleanup of the `finally` block still runs: no
recorded temporary file is left on disk, whatever the outcome. -/
theorem mergeFolder_catches_all_failures (opts : PageLayoutOptions) (env : Env) :
    ((mergeAllToPdf opts env).success = false ↔
      ¬((∀ e ∈ env.entries, entryOk opts env e = true) ∧ env.writeOk = true)) ∧
    ∀ f ∈ (mergeAllToPdf opts env).tempsRecorded,
      f ∉ (mergeAllToPdf opts env).remainingFiles := by
  constructor
  · rw [← mergeAllToPdf_success_iff]
    cases (mergeAllToPdf opts env).success <;> simp
  · intro f hf hrem
    rw [mergeAllToPdf_remainingFiles] at hrem
    rw [mergeAllToPdf_tempsRecorded] at hf
    unfold cleanup at hrem
    rw [List.mem_filter] at hrem
    simp at hrem
    exact hrem.2 hf

theorem image_suffix_not_pdf (name ext : String) (hmem : ext ∈ imageExtensions)
    (hsuf : pyEndsWith (pyLower name) ext = true) :
    pyEndsWith (pyLower name) ".pdf" = false := by
  by_contra hpdf
  rw [Bool.not_eq_false] at hpdf
  unfold pyEndsWith at hsuf hpdf
  rw [decide_eq_true_iff] at hsuf hpdf
  unfold imageExtensions at hmem
  simp only [List.mem_cons, List.not_mem_nil, or_false] at hmem
  rcases List.suffix_or_suffix_of_suffix hpdf hsuf with h | h <;>
    rcases hmem with rfl | rfl | rfl | rfl | rfl | rfl <;> revert h <;> decide

/-- C6: each entry is classified by filename suffix, case-insensitively, into
exactly one of three kinds — the suffix .pdf gives a document, one of the six
supported image suffixes gives an image, anything else is ignored — and a run
never fails on an ignored entry nor collects pages from it: its loop iteration
returns the state unchanged. -/
theorem classify_suffix_rules_and_ignored_noop (name : String) :
    (pyEndsWith (pyLower name) ".pdf" = true → classify name = Kind.document) ∧
    ((∃ ext ∈ imageExtensions, pyEndsWith (pyLower name) ext = true) →
      classify name = Kind.image) ∧
    ((pyEndsWith (pyLower name) ".pdf" = false ∧
      ∀ ext ∈ imageExtensions, pyEndsWith (pyLower name) ext = false) →
      classify name = Kind.ignored) ∧
    ∀ (opts : PageLayoutOptions) (env : Env) (st : MergeState) (e : Entry),
      classify e.name = Kind.ignored → processEntry opts env st e = Except.ok st := by
  refine ⟨?_, ?_, ?_, ?_⟩
  · intro h
    unfold classify
    rw [if_pos h]
  · rintro ⟨ext, hmem, hsuf⟩
    have hpdf := image_suffix_not_pdf name ext hmem hsuf
    unfold classify
    rw [if_neg (by simp [hpdf]), if_pos (List.any_eq_true.mpr ⟨ext, hmem, hsuf⟩)]
  · rintro ⟨hpdf, himg⟩
    unfold classify
    rw [if_neg (by simp [hpdf]), if_neg]
    intro hany
    obtain ⟨ext, hmem, hsuf⟩ := List.any_eq_true.mp hany
    exact absurd hsuf (by simp [himg ext hmem])
  · intro opts env st e h
    unfold processEntry
    rw [h]

/-- C7 amended: the traversal is flat and a subdirectory is classified by its
name alone, like any entry.  A subdirectory whose name has an unrecognized
suffix is skipped and does not affect the run, but a subdirectory whose name
ends in .pdf or in a supported image suffix is dispatched to the document or
image path, which fails to open it and raises, failing the run: subdirectories
are not ignored in general. -/
theorem subdirectory_dispatch_by_name (opts : PageLayoutOptions) (env : Env)
    (st : MergeState) (e : Entry) (hdir : e.content = Content.directory) :
    (classify e.name = Kind.ignored → processEntry opts env st e = Except.ok st) ∧
    (classify e.name ≠ Kind.ignored → processEntry opts env st e = Except.error st) := by
  constructor
  · intro h
    unfold processEntry
    rw [h]
  · intro h
    unfold processEntry
    cases hcl : classify e.name with
    | document => simp [hdir]
    | image => simp [hdir]
    | ignored => exact absurd hcl h

/-- Environment of the C7 counterexample: the only entry of the folder is a
subdirectory named sub.pdf. -/
def subdirEnv : Env :=
  { entries := [{ name := "sub.pdf", content := Content.directory }],
    tempAppendOk := fun _ => true, writeOk := true }

/-- Environment identical to `subdirEnv` but with an empty folder. -/
def emptyEnv : Env :=
  { entries := [], tempAppendOk := fun _ => true, writeOk := true }

/-- C7 counterexample: a subdirectory named sub.pdf is not ignored — the run
on a folder containing only that subdirectory fails, while the run on the
empty folder succeeds, so the subdirectory does affect the run. -/
theorem subdirectory_pdf_name_fails_run :
    (mergeAllToPdf defaultOpts subdirEnv).success = false ∧
    (mergeAllToPdf defaultOpts emptyEnv).success = true := by
  constructor
  · have hcl : classify "sub.pdf" = Kind.document := by decide
    have hsort : sortedEntries subdirEnv =
        [{ name := "sub.pdf", content := Content.directory }] := by decide
    simp [mergeAllToPdf, hsort, runLoop, processEntry, hcl, subdirEnv]
  · simp [mergeAllToPdf, sortedEntries, emptyEnv, List.insertionSort, runLoop]

/-- C9: when the configured input directory does not exist, the script creates
it, instructs the user to populate it and run again, and exits without
performing any merge and without producing an output document. -/
theorem main_creates_missing_input_dir (dirExists : Bool) (env : Env)
    (h : dirExists = false) :
    scriptMain dirExists env =
      { createdInputDir := true, instructedUser := true, ranMerge := false,
        mergeOutcome := none } := by
  simp [scriptMain, h]

/-- Witness for C9 at a concrete environment. -/
theorem main_creates_missing_input_dir_witness :
    scriptMain false leakEnv =
      { createdInputDir := true, instructedUser := true, ranMerge := false,
        mergeOutcome := none } :=
  main_creates_missing_input_dir false leakEnv rfl

/-- Witness for C4 at the concrete append-failure environment. -/
theorem mergeFolder_catches_all_failures_witness :
    ((mergeAllToPdf defaultOpts leakEnv).success = false ↔
      ¬((∀ e ∈ leakEnv.entries, entryOk defaultOpts leakEnv e = true) ∧
        leakEnv.writeOk = true)) ∧
    ∀ f ∈ (mergeAllToPdf defaultOpts leakEnv).tempsRecorded,
      f ∉ (mergeAllToPdf defaultOpts leakEnv).remainingFiles :=
  mergeFolder_catches_all_failures defaultOpts leakEnv

/-- Geometry of a 100 by 100 image fitted on the default letter page. -/
def gSquare : Geometry := ⟨20, 110, 572, 572⟩

/-- Geometry of a 300 by 200 image fitted on the default letter page. -/
def gWide : Geometry := ⟨20, 411 / 2, 572, 381⟩

theorem convert_eval_100_100 :
    convertImageToPdf 100 100 defaultOpts = Except.ok gSquare := by
  norm_num [convertImageToPdf, convertGeometry, gSquare, defaultOpts, truncQ,
    letterWidth, letterHeight]

theorem convert_eval_300_200 :
    convertImageToPdf 300 200 defaultOpts = Except.ok gWide := by
  norm_num [convertImageToPdf, convertGeometry, gWide, defaultOpts, truncQ,
    letterWidth, letterHeight]

/-- Folder of the success witnesses: two images and one two-page pdf document,
listed out of order, with all library calls succeeding. -/
def demoEnv : Env :=
  { entries := [{ name := "c.jpg", content := Content.image 300 200 },
                { name := "a.png", content := Content.image 100 100 },
                { name := "b.pdf", content := Content.document 2 }],
    tempAppendOk := fun _ => true, writeOk := true }

theorem demoEnv_success : (mergeAllToPdf defaultOpts demoEnv).success = true := by
  apply (mergeAllToPdf_success_iff defaultOpts demoEnv).mpr
  refine ⟨?_, rfl⟩
  intro e he
  have hc1 : classify "c.jpg" = Kind.image := by decide
  have hc2 : classify "a.png" = Kind.image := by decide
  have hc3 : classify "b.pdf" = Kind.document := by decide
  simp only [demoEnv, List.mem_cons, List.not_mem_nil, or_false] at he
  rcases he with rfl | rfl | rfl
  · simp [entryOk, hc1, convert_eval_300_200, Except.isOk, Except.toBool, demoEnv]
  · simp [entryOk, hc2, convert_eval_100_100, Except.isOk, Except.toBool, demoEnv]
  · simp [entryOk, hc3]

/-- Witness for C1 at the concrete three-entry folder. -/
theorem mergeFolder_concat_in_sorted_order_witness :
    (mergeAllToPdf defaultOpts demoEnv).success = true ∧
    ((mergeAllToPdf defaultOpts demoEnv).pages = (sortedEntries demoEnv).flatMap entryPages ∧
     List.Perm (sortedEntries demoEnv) demoEnv.entries ∧
     (sortedEntries demoEnv).Pairwise (fun a b => a.name ≤ b.name) ∧
     (mergeAllToPdf defaultOpts demoEnv).pages.length =
       (demoEnv.entries.map entryPageCount).sum) :=
  ⟨demoEnv_success, mergeFolder_concat_in_sorted_order defaultOpts demoEnv demoEnv_success⟩

/-- Witness for the amended C2 at the concrete three-entry folder. -/
theorem mergeFolder_no_temp_left_witness :
    (∀ e ∈ demoEnv.entries, demoEnv.tempAppendOk e.name = true) ∧
    (mergeAllToPdf defaultOpts demoEnv).remainingFiles = [] :=
  ⟨by decide, mergeFolder_no_temp_left_when_appends_succeed defaultOpts demoEnv (by decide)⟩

/-- Witness for C3: the 100 by 100 image on the default letter page. -/
theorem convert_fit_centered_within_margins_witness :
    convertImageToPdf 100 100 defaultOpts = Except.ok gSquare ∧
    (0 < gSquare.width ∧ 0 < gSquare.height ∧
     gSquare.xPos = (defaultOpts.pageWidth - (gSquare.width : ℚ)) / 2 ∧
     gSquare.yPos = (defaultOpts.pageHeight - (gSquare.height : ℚ)) / 2 ∧
     20 ≤ gSquare.xPos ∧
     gSquare.xPos + (gSquare.width : ℚ) ≤ defaultOpts.pageWidth - 20 ∧
     20 ≤ gSquare.yPos ∧
     gSquare.yPos + (gSquare.height : ℚ) ≤ defaultOpts.pageHeight - 20) :=
  ⟨convert_eval_100_100,
   convert_fit_centered_within_margins 100 100 defaultOpts gSquare
     (by decide) (by decide) rfl rfl convert_eval_100_100⟩

/-- Witness for C5: the 300 by 200 image on the default letter page, where the
height truncation is strict. -/
theorem convert_fit_uniform_scaling_witness :
    convertImageToPdf 300 200 defaultOpts = Except.ok gWide ∧
    (gWide.width = truncQ (((300 : ℕ) : ℚ) * fitRatio 300 200 defaultOpts) ∧
     gWide.height = truncQ (((200 : ℕ) : ℚ) * fitRatio 300 200 defaultOpts) ∧
     ((300 : ℕ) : ℚ) * fitRatio 300 200 defaultOpts - 1 < (gWide.width : ℚ) ∧
     (gWide.width : ℚ) ≤ ((300 : ℕ) : ℚ) * fitRatio 300 200 defaultOpts ∧
     ((200 : ℕ) : ℚ) * fitRatio 300 200 defaultOpts - 1 < (gWide.height : ℚ) ∧
     (gWide.height : ℚ) ≤ ((200 : ℕ) : ℚ) * fitRatio 300 200 defaultOpts) :=
  ⟨convert_eval_300_200,
   convert_fit_uniform_scaling 300 200 defaultOpts gWide rfl rfl convert_eval_300_200⟩

/-- Witness for C6 at concrete filenames of each kind, mixed case included. -/
theorem classify_suffix_rules_witness :
    classify "Resume.PDF" = Kind.document ∧
    classify "photo.JPeG" = Kind.image ∧
    classify "notes.txt" = Kind.ignored ∧
    processEntry defaultOpts emptyEnv initState
        { name := "notes.txt", content := Content.other } = Except.ok initState :=
  ⟨(classify_suffix_rules_and_ignored_noop "Resume.PDF").1 (by decide),
   (classify_suffix_rules_and_ignored_noop "photo.JPeG").2.1 ⟨".jpeg", by decide, by decide⟩,
   (classify_suffix_rules_and_ignored_noop "notes.txt").2.2.1 ⟨by decide, by decide⟩,
   (classify_suffix_rules_and_ignored_noop "notes.txt").2.2.2 defaultOpts emptyEnv initState
     _ (by decide)⟩

/-- Witness for the amended C7 at two concrete subdirectories. -/
theorem subdirectory_dispatch_witness :
    ({ name := "sub.txt", content := Content.directory } : Entry).content =
      Content.directory ∧
    processEntry defaultOpts emptyEnv initState
        { name := "sub.txt", content := Content.directory } = Except.ok initState ∧
    processEntry defaultOpts emptyEnv initState
        { name := "sub.pdf", content := Content.directory } = Except.error initState :=
  ⟨rfl,
   (subdirectory_dispatch_by_name defaultOpts emptyEnv initState _ rfl).1 (by decide),
   (subdirectory_dispatch_by_name defaultOpts emptyEnv initState _ rfl).2 (by decide)⟩

/-- Options identical to the defaults except that `fit_to_page` is off. -/
def noFitOpts : PageLayoutOptions :=
  { pageWidth := letterWidth, pageHeight := letterHeight, fitToPage := false,
    maintainAspectRatio := true, quality := 85, dpi := 300 }

/-- Witness for C8: a 5000 by 3000 image far larger than the letter page is
still placed at the origin with its native size. -/
theorem convert_no_fit_passthrough_witness :
    noFitOpts.fitToPage = false ∧
    convertImageToPdf 5000 3000 noFitOpts =
      Except.ok ⟨0, 0, ((5000 : ℕ) : ℤ), ((3000 : ℕ) : ℤ)⟩ :=
  ⟨rfl, convert_no_fit_passthrough 5000 3000 noFitOpts rfl⟩

/-- Options with a page too narrow for the fixed 40 points of margin. -/
def smallOpts : PageLayoutOptions :=
  { pageWidth := 30, pageHeight := 100, fitToPage := true,
    maintainAspectRatio := true, quality := 85, dpi := 300 }

/-- Witness for C10: a 10 by 10 image on a 30 by 100 page. -/
theorem convert_fit_fails_on_small_page_witness :
    smallOpts.pageWidth ≤ 40 ∧
    (((convertGeometry 10 10 smallOpts).width ≤ 0 ∨
      (convertGeometry 10 10 smallOpts).height ≤ 0) ∧
     convertImageToPdf 10 10 smallOpts = Except.error ConvError.resizeFailed) :=
  ⟨by norm_num [smallOpts],
   convert_fit_fails_on_small_page 10 10 smallOpts (by decide) (by decide) rfl
     (Or.inl (by norm_num [smallOpts]))⟩

end MergePdf
